import Mathlib

/-!
Verification of the concurrent free-block sweep of `zerofree.c`
(a tool that fills every free block of an ext2 image with a fill byte).

The development shallowly embeds the program in two layers:

* a pure per-block / per-sweep model (`SweepSt`, `doJob`, `sweepRun`) of the
  worker's read/compare/write job body (`worker_thread`, lines 65-108) and of
  the shared progress counters (`freeBlocks`, `modifiedBlocks`, `percent`),
  plus a model of `main`'s argument validation, precondition checks and open
  call (lines 121-235);
* a labelled transition system (`SysState`, `stepF`) of the mutex-protected
  producer/consumer handoff between the dispatch loop of `main`
  (lines 236-255) and the worker threads (lines 50-118).  Every critical
  section of the C code (a region executed while holding `mutex`, delimited
  by `pthread_mutex_lock`/`unlock`/`cond_wait`) becomes one atomic step, and
  a `pthread_cond_wait` under a `while (P)` loop becomes an enabledness
  guard `¬P` on the step that leaves the wait, which is the standard sound
  abstraction for condition variables.  Worker threads all run the same
  code, so the pool is represented by the number of workers at each program
  point (`nWait`, `nBusy`, `nExited`) together with the shared globals.
-/

namespace Zerofree

/-! ## Per-block job and progress state

`SweepSt` collects the shared mutable state touched by one worker job:
the global counters `freeBlocks`, `modifiedBlocks` and `percent`
(C lines 37-38), the block contents of the image (each block is a buffer
of `fs->blocksize` bytes, modelled as a `List Nat` of byte values), and two
event logs `reads`/`writes` recording the block numbers passed to
`io_channel_read_blk` (line 82) and `io_channel_write_blk` (line 103). -/
structure SweepSt where
  freeBlocks : Nat
  modifiedBlocks : Nat
  percent : ℚ
  vol : Nat → List Nat
  reads : List Nat
  writes : List Nat

/-- One worker job on block `blk` (`worker_thread`, lines 65-108), on the
successful-I/O path (read/write errors are treated in the transition system
below; they terminate the worker without touching `SweepSt` further).

* `bm blk` is `ext2fs_test_block_bitmap(fs->block_map, blk)`: `true` means
  the block is in use, and the job ends at once (lines 65-67).
* Otherwise `freeBlocks` is incremented and `percent` recomputed as
  `100 * freeBlocks / s_free_blocks_count` (lines 70-72; the C code uses
  `double`, modelled here with exact rationals).
* The block is read (line 82) and every byte `i < blocksize` compared
  against `fillval` (lines 88-92).  If all bytes match, nothing more
  happens (lines 94-96).
* Otherwise `modifiedBlocks` is incremented (line 99) and, unless `dryrun`
  is set, the `empty` buffer — `blocksize` copies of `fillval`, built by
  `memset(empty, fillval, fs->blocksize)` at line 207 — is written back to
  the block (lines 102-108). -/
def doJob (bm : Nat → Bool) (blocksize fillval sFree : Nat) (dryrun : Bool)
    (blk : Nat) (s : SweepSt) : SweepSt :=
  if bm blk then s
  else
    let s1 : SweepSt :=
      { s with freeBlocks := s.freeBlocks + 1,
               percent := 100 * ((s.freeBlocks + 1 : Nat) : ℚ) / (sFree : ℚ),
               reads := s.reads ++ [blk] }
    if (s.vol blk).all (fun b => b == fillval) then s1
    else
      let s2 : SweepSt := { s1 with modifiedBlocks := s1.modifiedBlocks + 1 }
      if dryrun then s2
      else
        { s2 with vol := Function.update s2.vol blk (List.replicate blocksize fillval),
                  writes := s2.writes ++ [blk] }

/-- The sweep state just before the dispatch loop: counters and percentage
zeroed (lines 231-232), no I/O done yet, image contents `vol0`. -/
def initSweep (vol0 : Nat → List Nat) : SweepSt :=
  { freeBlocks := 0, modifiedBlocks := 0, percent := 0,
    vol := vol0, reads := [], writes := [] }

/-- The cumulative effect of running the jobs for the block numbers `blks`
(in dispatch order) from the freshly initialised sweep state. -/
def sweepRun (bm : Nat → Bool) (blocksize fillval sFree : Nat) (dryrun : Bool)
    (blks : List Nat) (vol0 : Nat → List Nat) : SweepSt :=
  blks.foldl (fun s b => doJob bm blocksize fillval sFree dryrun b s) (initSweep vol0)

/-! ## Command line, preconditions and the open call (`main`, lines 121-235) -/

/-- `EXT2_MF_MOUNTED` from `ext2fs.h`: the filesystem is mounted. -/
def EXT2_MF_MOUNTED : Nat := 1
/-- `EXT2_MF_READONLY` from `ext2fs.h`: the mount is read-only. -/
def EXT2_MF_READONLY : Nat := 2
/-- `EXT2_FLAG_RW` from `ext2fs.h`: open the filesystem for writing. -/
def EXT2_FLAG_RW : Nat := 1

/-- Conversion of a C `long` to `unsigned int` (32 bits): reduction modulo
2^32.  Applied at line 144, where the `long` returned by `strtol` is stored
into the `unsigned int` global `fillval`. -/
def uintOfLong (v : Int) : Nat := (v % (2 ^ 32 : Int)).toNat

/-- Conversion of a C `long` to a 32-bit signed `int` (two's-complement
wrap-around, the behaviour of every platform this tool targets).  Applied
at line 157 (`max_threads = strtol(...)`) and at line 58
(`int blk = job_block_num;`). -/
def cIntOfLong (v : Int) : Int := (v + 2 ^ 31) % 2 ^ 32 - 2 ^ 31

/-- The worker's local block number: line 58 copies the shared
`volatile unsigned long job_block_num` into the `int blk` that is then used
for the bitmap test, the read and the write of the job's block. -/
def job_block_num_to_blk (n : Nat) : Int := cIntOfLong (n : Int)

/-- The command line as `getopt` (line 133) decomposes it.
`fArg`/`tArg` are `none` when the flag is absent, `some none` when the flag
is present but its argument fails the `!*optarg || *endptr` check after
`strtol` (lines 145, 158: empty argument or trailing junk), and
`some (some v)` when `strtol` parses the `long` value `v`.
`hasBadOpt` records an option `getopt` rejects (the `default` arm,
line 167).  `nPositional` is `argc - optind`. -/
structure CmdLine where
  nFlag : Bool
  vFlag : Bool
  fArg : Option (Option Int)
  tArg : Option (Option Int)
  hasBadOpt : Bool
  nPositional : Nat

/-- The configuration that survives argument validation. -/
structure Config where
  dryrun : Bool
  verbose : Bool
  fillval : Nat
  max_threads : Int

/-- The value of the global `unsigned int fillval` after the `getopt` loop:
its initialiser `0` (line 40) unless `-f` parsed a value (line 144). -/
def fillvalOf (cl : CmdLine) : Nat :=
  match cl.fArg with
  | some (some v) => uintOfLong v
  | _ => 0

/-- The value of the local `int max_threads` after the `getopt` loop: its
initialiser `1` (line 130) unless `-t` parsed a value (line 157). -/
def maxThreadsOf (cl : CmdLine) : Int :=
  match cl.tArg with
  | some (some v) => cIntOfLong v
  | _ => 1

/-- Argument parsing and validation, lines 133-176.  Returns the process
exit code `1` on the first failing check:
 * a malformed `-f` or `-t` argument (lines 145-147, 158-160);
 * `fillval > 0xFF` after the unsigned conversion (lines 148-150);
 * `max_threads < 1 || max_threads > 1024*1024` (lines 161-163; the error
   message text says 1-256 but the enforced bound is `1024*1024`);
 * an unknown option (lines 167-169);
 * anything but exactly one positional argument (lines 173-176). -/
def parseArgs (cl : CmdLine) : Except Nat Config :=
  if cl.hasBadOpt then .error 1
  else
    match cl.fArg with
    | some none => .error 1
    | _ =>
      if 0xFF < fillvalOf cl then .error 1
      else
        match cl.tArg with
        | some none => .error 1
        | _ =>
          if maxThreadsOf cl < 1 ∨ 1024 * 1024 < maxThreadsOf cl then .error 1
          else if cl.nPositional ≠ 1 then .error 1
          else .ok { dryrun := cl.nFlag, verbose := cl.vFlag,
                     fillval := fillvalOf cl, max_threads := maxThreadsOf cl }

/-- The environment `main` meets once arguments are validated: the results
of `ext2fs_check_if_mounted` (line 179), `ext2fs_open` (line 193),
`ext2fs_read_inode_bitmap` (line 210) and `ext2fs_read_block_bitmap`
(line 225), and the filesystem's geometry and contents. -/
structure VolEnv where
  mountCheckErr : Bool
  mountFlags : Nat
  openErr : Bool
  inodeBitmapErr : Bool
  blockBitmapErr : Bool
  blocksizeV : Nat
  firstDataBlock : Nat
  blocksCount : Nat
  freeBlocksCount : Nat
  blockMap : Nat → Bool
  vol0 : Nat → List Nat

/-- What a run that reaches the sweep produces: the flags passed to
`ext2fs_open` and the final sweep state. -/
structure RunOutcome where
  openFlags : Nat
  sweep : SweepSt

/-- `main` up to and including the sweep, lines 121-246.  In order:
argument validation; the mounted-read-write refusal
(`(flags & EXT2_MF_MOUNTED) && !(flags & EXT2_MF_READONLY)`, lines
186-190); `ext2fs_open` with `open_flags`, which line 126 fixes to
`EXT2_FLAG_RW` and nothing ever changes; the bitmap loads; then the
dispatch loop over `blk` from `fs->super->s_first_data_block` up to
`fs->super->s_blocks_count` (line 236).  Every failing check returns exit
code 1 before the sweep — and hence before any block write — happens. -/
def mainModel (cl : CmdLine) (env : VolEnv) : Except Nat RunOutcome :=
  match parseArgs cl with
  | .error e => .error e
  | .ok cfg =>
    if env.mountCheckErr then .error 1
    else if env.mountFlags &&& EXT2_MF_MOUNTED ≠ 0 ∧ env.mountFlags &&& EXT2_MF_READONLY = 0 then
      .error 1
    else if env.openErr then .error 1
    else if env.inodeBitmapErr then .error 1
    else if env.blockBitmapErr then .error 1
    else
      .ok { openFlags := EXT2_FLAG_RW,
            sweep := sweepRun env.blockMap env.blocksizeV cfg.fillval env.freeBlocksCount
                       cfg.dryrun
                       (List.range' env.firstDataBlock (env.blocksCount - env.firstDataBlock))
                       env.vol0 }

/-- `main` after the workers are joined, lines 257-267: the only remaining
control flow is the optional verbose summary and `ext2fs_close`; the return
value is 1 exactly when the close fails and 0 otherwise.  No information
about worker I/O errors reaches this point: `worker_thread` returns `NULL`
on every path (line 118) and `pthread_join` is called with a `NULL` value
slot (line 254). -/
def mainReturnAfterJoin (closeErr : Bool) : Nat :=
  if closeErr then 1 else 0

/-! ## The dispatch/worker handoff protocol (lines 26-42, 50-118, 236-255)

One atomic step of the model is one mutex-protected critical section of the
C code.  The coordinator program counter `CPc` tracks `main`'s dispatch
loop; worker threads are anonymous (they all run `worker_thread`), so the
state only counts how many sit at each program point. -/

/-- The coordinator's program counter inside `main`.
`loop blk` : at the `for` loop test (line 236) with current value `blk`;
`waitAccept blk` : published `blk` and inside `while (do_job) wait`
(lines 243-244); `setQuit` : after the loop, about to run lines 247-250;
`done` : after the termination broadcast, at the join loop (lines 251-255). -/
inductive CPc where
  | loop (blk : Nat)
  | waitAccept (blk : Nat)
  | setQuit
  | done
deriving DecidableEq, Repr

/-- The shared state of one sweep: the globals `quit`, `do_job`,
`job_block_num` and `runningThreads` (lines 31-36), the coordinator's
program counter, the number of workers at each point of `worker_thread`
(`nWait`: blocked in `while (!do_job) wait`, lines 54-55; `nBusy`: between
the acceptance at lines 58-62 and the `runningThreads--` that ends the job;
`nExited`: returned from the thread, line 118), and the log `accepted` of
the `job_block_num` values copied out by workers at line 58, in order. -/
structure SysState where
  quit : Bool
  do_job : Bool
  job_block_num : Nat
  runningThreads : Int
  cpc : CPc
  nWait : Nat
  nBusy : Nat
  nExited : Nat
  accepted : List Nat
deriving DecidableEq, Repr

/-- The labels of the atomic steps: four coordinator sections and four
worker sections. -/
inductive SLabel where
  | dispatch
  | acceptDone
  | loopExit
  | doQuit
  | accept
  | quitBreak
  | finishJob
  | errorExit
deriving DecidableEq, Repr

/-- One atomic step of the protocol; `none` when the labelled section is not
enabled in `s`.  `count` is `fs->super->s_blocks_count` and `max` the
validated `max_threads`.

Coordinator (`main`):
* `dispatch` (lines 237-242): at the loop test with `blk < count`, once
  `runningThreads < max_threads` holds (the exit condition of
  `while (runningThreads >= max_threads) wait`, lines 238-239), store
  `job_block_num = blk`, set `do_job = 1` and signal `job_enqueued`.
* `acceptDone` (lines 243-245): leave `while (do_job) wait` — enabled only
  once a worker has cleared `do_job` — and advance to the next `blk`.
* `loopExit` (line 236): the loop test fails, fall through to line 247.
* `doQuit` (lines 247-250): set `quit = 1` and broadcast `job_enqueued`
  (the broadcast itself only wakes waiters; whether they can proceed is
  their own guard).

Worker (`worker_thread`):
* `accept` (lines 54-62 with `quit == 0`): a waiting worker leaves
  `while (!do_job) wait` — enabled only when `do_job` is set — copies
  `job_block_num`, increments `runningThreads`, clears `do_job` and signals
  `job_accepted`.
* `quitBreak` (lines 54-57 then 115-117, with `quit != 0`): a waiting
  worker leaves the wait loop, sees `quit`, breaks, decrements
  `runningThreads` at the `finish` label and returns.
* `finishJob` (lines 109-112): a busy worker reaches `again`, decrements
  `runningThreads`, signals `job_done` and goes back to the wait loop.
  This covers jobs on in-use blocks, clean free blocks and rewritten
  blocks alike.
* `errorExit` (lines 82-86 or 102-107, then 115-117): a busy worker's
  `io_channel_read_blk` or `io_channel_write_blk` fails; it prints the
  error message, jumps to `finish`, decrements `runningThreads` and
  returns. -/
def stepF (count : Nat) (max : Int) (l : SLabel) (s : SysState) : Option SysState :=
  match l with
  | .dispatch =>
    match s.cpc with
    | .loop blk =>
      if blk < count ∧ s.runningThreads < max then
        some { s with job_block_num := blk, do_job := true, cpc := .waitAccept blk }
      else none
    | _ => none
  | .acceptDone =>
    match s.cpc with
    | .waitAccept blk =>
      if s.do_job then none else some { s with cpc := .loop (blk + 1) }
    | _ => none
  | .loopExit =>
    match s.cpc with
    | .loop blk => if blk < count then none else some { s with cpc := .setQuit }
    | _ => none
  | .doQuit =>
    match s.cpc with
    | .setQuit => some { s with quit := true, cpc := .done }
    | _ => none
  | .accept =>
    if s.nWait ≠ 0 ∧ s.do_job = true ∧ s.quit = false then
      some { s with nWait := s.nWait - 1, nBusy := s.nBusy + 1,
                    runningThreads := s.runningThreads + 1, do_job := false,
                    accepted := s.accepted ++ [s.job_block_num] }
    else none
  | .quitBreak =>
    if s.nWait ≠ 0 ∧ s.do_job = true ∧ s.quit = true then
      some { s with nWait := s.nWait - 1, nExited := s.nExited + 1,
                    runningThreads := s.runningThreads - 1 }
    else none
  | .finishJob =>
    if s.nBusy ≠ 0 then
      some { s with nBusy := s.nBusy - 1, nWait := s.nWait + 1,
                    runningThreads := s.runningThreads - 1 }
    else none
  | .errorExit =>
    if s.nBusy ≠ 0 then
      some { s with nBusy := s.nBusy - 1, nExited := s.nExited + 1,
                    runningThreads := s.runningThreads - 1 }
    else none

/-- Some step is enabled and leads from `s` to `t`. -/
def StepRel (count : Nat) (max : Int) (s t : SysState) : Prop :=
  ∃ l, stepF count max l s = some t

/-- The state when the dispatch loop is about to start: globals zeroed as
declared (lines 31-36), all `numWorkers` created threads blocked waiting for
a job, `blk` initialised to `fs->super->s_first_data_block` (line 236). -/
def initState (first numWorkers : Nat) : SysState :=
  { quit := false, do_job := false, job_block_num := 0, runningThreads := 0,
    cpc := .loop first, nWait := numWorkers, nBusy := 0, nExited := 0, accepted := [] }

/-- Reachability of a protocol state from the start of the sweep. -/
def Reachable (count : Nat) (max : Int) (first numWorkers : Nat) (s : SysState) : Prop :=
  Relation.ReflTransGen (StepRel count max) (initState first numWorkers) s

/-- Executes a concrete schedule of critical sections. -/
def runTrace (count : Nat) (max : Int) : List SLabel → SysState → Option SysState
  | [], s => some s
  | l :: ls, s =>
    match stepF count max l s with
    | some t => runTrace count max ls t
    | none => none

/-! ## Protocol invariants -/

/-- Relation between the coordinator's program counter, the single-slot
job variables and the log of accepted jobs: the accepted blocks always form
the ascending initial segment of `[first, count)` that the dispatch loop
has completed, and a published-but-unaccepted job carries exactly the
loop's current block number. -/
def cpcOk (first count : Nat) (s : SysState) : Prop :=
  (∀ blk, s.cpc = CPc.loop blk →
      first ≤ blk ∧ (count ≤ blk → blk - first = count - first) ∧ s.do_job = false ∧
        s.accepted = List.range' first (blk - first)) ∧
  (∀ blk, s.cpc = CPc.waitAccept blk →
      first ≤ blk ∧ blk < count ∧
        (s.do_job = true →
          s.job_block_num = blk ∧ s.accepted = List.range' first (blk - first)) ∧
        (s.do_job = false → s.accepted = List.range' first (blk + 1 - first))) ∧
  (s.cpc = CPc.setQuit →
      s.do_job = false ∧ s.accepted = List.range' first (count - first)) ∧
  (s.cpc = CPc.done →
      s.do_job = false ∧ s.accepted = List.range' first (count - first))

/-- The inductive invariant of the handoff protocol:
worker bookkeeping is conserved, `runningThreads` counts exactly the busy
workers and stays within `[0, max]` (the upper bound because a job is
published only under `runningThreads < max_threads`), `quit` is set only
after the dispatch loop with an empty job slot, and `cpcOk`. -/
def Inv (first count : Nat) (max : Int) (N : Nat) (s : SysState) : Prop :=
  s.nWait + s.nBusy + s.nExited = N ∧
  s.runningThreads = (s.nBusy : Int) ∧
  s.runningThreads ≤ max ∧
  (s.do_job = true → s.runningThreads < max) ∧
  (s.quit = true → s.do_job = false ∧ s.cpc = CPc.done) ∧
  cpcOk first count s

theorem runTrace_reflTransGen {count : Nat} {max : Int} :
    ∀ (ls : List SLabel) (s t : SysState), runTrace count max ls s = some t →
      Relation.ReflTransGen (StepRel count max) s t := by
  intro ls
  induction ls with
  | nil =>
    intro s t h
    cases h
    exact Relation.ReflTransGen.refl
  | cons l ls ih =>
    intro s t h
    unfold runTrace at h
    cases hl : stepF count max l s with
    | none => rw [hl] at h; cases h
    | some u =>
      rw [hl] at h
      exact Relation.ReflTransGen.head ⟨l, hl⟩ (ih u t h)

theorem runTrace_reachable (count : Nat) (max : Int) (first numWorkers : Nat)
    (ls : List SLabel) (t : SysState)
    (h : runTrace count max ls (initState first numWorkers) = some t) :
    Reachable count max first numWorkers t :=
  runTrace_reflTransGen ls _ t h

theorem inv_init (first count : Nat) (max : Int) (N : Nat) (hmax : 0 < max) :
    Inv first count max N (initState first N) := by
  refine ⟨rfl, rfl, ?_, ?_, ?_, ?_, ?_, ?_, ?_⟩
  · exact le_of_lt hmax
  · intro h; cases h
  · intro h; cases h
  · intro blk hcc
    have he := CPc.loop.inj hcc
    subst he
    exact ⟨le_refl first, fun _ => by omega, rfl, by rw [Nat.sub_self]; rfl⟩
  · intro blk hcc; exact CPc.noConfusion hcc
  · intro hcc; exact CPc.noConfusion hcc
  · intro hcc; exact CPc.noConfusion hcc

theorem inv_step {first count : Nat} {max : Int} {N : Nat} {s t : SysState}
    (hinv : Inv first count max N s) (hstep : StepRel count max s t) :
    Inv first count max N t := by
  obtain ⟨hN, hrun, hle, hdj, hq, hcpcL, hcpcW, hcpcS, hcpcD⟩ := hinv
  obtain ⟨l, hl⟩ := hstep
  cases l with
  | dispatch =>
    cases hc : s.cpc with
    | loop blk =>
      simp only [stepF, hc] at hl
      split at hl
      · next hcond =>
        obtain ⟨hblk, hrm⟩ := hcond
        obtain ⟨h1, h2, h3, h4⟩ := hcpcL blk hc
        injection hl with hl
        subst hl
        refine ⟨hN, hrun, hle, fun _ => hrm, ?_, ?_, ?_, ?_, ?_⟩
        · intro hqt
          exact CPc.noConfusion ((hq hqt).2.symm.trans hc)
        · intro blk' hcc; exact CPc.noConfusion hcc
        · intro blk' hcc
          have he := CPc.waitAccept.inj hcc
          subst he
          exact ⟨h1, hblk, fun _ => ⟨rfl, h4⟩, fun h => Bool.noConfusion h⟩
        · intro hcc; exact CPc.noConfusion hcc
        · intro hcc; exact CPc.noConfusion hcc
      · cases hl
    | waitAccept blk => simp [stepF, hc] at hl
    | setQuit => simp [stepF, hc] at hl
    | done => simp [stepF, hc] at hl
  | acceptDone =>
    cases hc : s.cpc with
    | waitAccept blk =>
      simp only [stepF, hc] at hl
      split at hl
      · cases hl
      · next hcond =>
        have hdjf : s.do_job = false := by
          cases hdb : s.do_job
          · rfl
          · exact absurd hdb hcond
        obtain ⟨h1, h2, h3, h4⟩ := hcpcW blk hc
        injection hl with hl
        subst hl
        refine ⟨hN, hrun, hle, hdj, ?_, ?_, ?_, ?_, ?_⟩
        · intro hqt
          exact CPc.noConfusion ((hq hqt).2.symm.trans hc)
        · intro blk' hcc
          have he := CPc.loop.inj hcc
          have he' : blk' = blk + 1 := he.symm
          subst he'
          exact ⟨Nat.le_succ_of_le h1, fun h => by omega, hdjf, h4 hdjf⟩
        · intro blk' hcc; exact CPc.noConfusion hcc
        · intro hcc; exact CPc.noConfusion hcc
        · intro hcc; exact CPc.noConfusion hcc
    | loop blk => simp [stepF, hc] at hl
    | setQuit => simp [stepF, hc] at hl
    | done => simp [stepF, hc] at hl
  | loopExit =>
    cases hc : s.cpc with
    | loop blk =>
      simp only [stepF, hc] at hl
      split at hl
      · cases hl
      · next hcond =>
        obtain ⟨h1, h2, h3, h4⟩ := hcpcL blk hc
        injection hl with hl
        subst hl
        refine ⟨hN, hrun, hle, hdj, ?_, ?_, ?_, ?_, ?_⟩
        · intro hqt
          exact CPc.noConfusion ((hq hqt).2.symm.trans hc)
        · intro blk' hcc; exact CPc.noConfusion hcc
        · intro blk' hcc; exact CPc.noConfusion hcc
        · intro hcc
          refine ⟨h3, ?_⟩
          have h5 : blk - first = count - first := h2 (by omega)
          show s.accepted = List.range' first (count - first)
          rw [h4, h5]
        · intro hcc; exact CPc.noConfusion hcc
    | waitAccept blk => simp [stepF, hc] at hl
    | setQuit => simp [stepF, hc] at hl
    | done => simp [stepF, hc] at hl
  | doQuit =>
    cases hc : s.cpc with
    | setQuit =>
      simp only [stepF, hc] at hl
      obtain ⟨h1, h2⟩ := hcpcS hc
      injection hl with hl
      subst hl
      refine ⟨hN, hrun, hle, hdj, fun _ => ⟨h1, rfl⟩, ?_, ?_, ?_, ?_⟩
      · intro blk' hcc; exact CPc.noConfusion hcc
      · intro blk' hcc; exact CPc.noConfusion hcc
      · intro hcc; exact CPc.noConfusion hcc
      · intro hcc; exact ⟨h1, h2⟩
    | loop blk => simp [stepF, hc] at hl
    | waitAccept blk => simp [stepF, hc] at hl
    | done => simp [stepF, hc] at hl
  | accept =>
    simp only [stepF] at hl
    split at hl
    · next hcond =>
      obtain ⟨hw, hdb, hqf⟩ := hcond
      injection hl with hl
      subst hl
      cases hc : s.cpc with
      | waitAccept blk =>
        obtain ⟨h1, h2, h3, h4⟩ := hcpcW blk hc
        obtain ⟨hjob, hacc⟩ := h3 hdb
        refine ⟨?_, ?_, ?_, ?_, ?_, ?_, ?_, ?_, ?_⟩
        · show s.nWait - 1 + (s.nBusy + 1) + s.nExited = N
          omega
        · show s.runningThreads + 1 = ((s.nBusy + 1 : Nat) : Int)
          omega
        · show s.runningThreads + 1 ≤ max
          have := hdj hdb
          omega
        · intro h; exact Bool.noConfusion h
        · intro h; exact absurd (hqf.symm.trans h) (by simp)
        · intro blk' hcc
          exact CPc.noConfusion hcc
        · intro blk' hcc
          have he := CPc.waitAccept.inj hcc
          subst he
          refine ⟨h1, h2, fun h => Bool.noConfusion h, fun _ => ?_⟩
          show s.accepted ++ [s.job_block_num] = List.range' first (blk + 1 - first)
          rw [hacc, hjob]
          have h5 : blk + 1 - first = (blk - first) + 1 := by omega
          have h6 : first + (blk - first) = blk := by omega
          rw [h5, List.range'_1_concat, h6]
        · intro hcc
          exact CPc.noConfusion hcc
        · intro hcc
          exact CPc.noConfusion hcc
      | loop blk =>
        obtain ⟨h1, h2, h3, h4⟩ := hcpcL blk hc
        exact absurd (hdb.symm.trans h3) (by simp)
      | setQuit =>
        obtain ⟨h1, h2⟩ := hcpcS hc
        exact absurd (hdb.symm.trans h1) (by simp)
      | done =>
        obtain ⟨h1, h2⟩ := hcpcD hc
        exact absurd (hdb.symm.trans h1) (by simp)
    · cases hl
  | quitBreak =>
    simp only [stepF] at hl
    split at hl
    · next hcond =>
      obtain ⟨hw, hdb, hqt⟩ := hcond
      exact absurd ((hq hqt).1.symm.trans hdb) (by simp)
    · cases hl
  | finishJob =>
    simp only [stepF] at hl
    split at hl
    · next hcond =>
      injection hl with hl
      subst hl
      refine ⟨?_, ?_, ?_, ?_, hq, hcpcL, hcpcW, hcpcS, hcpcD⟩
      · show s.nWait + 1 + (s.nBusy - 1) + s.nExited = N
        omega
      · show s.runningThreads - 1 = ((s.nBusy - 1 : Nat) : Int)
        omega
      · show s.runningThreads - 1 ≤ max
        omega
      · intro h
        have := hdj h
        show s.runningThreads - 1 < max
        omega
    · cases hl
  | errorExit =>
    simp only [stepF] at hl
    split at hl
    · next hcond =>
      injection hl with hl
      subst hl
      refine ⟨?_, ?_, ?_, ?_, hq, hcpcL, hcpcW, hcpcS, hcpcD⟩
      · show s.nWait + (s.nBusy - 1) + (s.nExited + 1) = N
        omega
      · show s.runningThreads - 1 = ((s.nBusy - 1 : Nat) : Int)
        omega
      · show s.runningThreads - 1 ≤ max
        omega
      · intro h
        have := hdj h
        show s.runningThreads - 1 < max
        omega
    · cases hl

/-- Every state of a sweep with a validated thread count satisfies the
protocol invariant. -/
theorem inv_reachable {first count : Nat} {max : Int} {N : Nat} (hmax : 0 < max)
    {s : SysState} (h : Reachable count max first N s) : Inv first count max N s := by
  induction h with
  | refl => exact inv_init first count max N hmax
  | tail _ hstep ih => exact inv_step ih hstep

/-! ## Characterisation of the per-block job -/

theorem doJob_inuse {bm : Nat → Bool} {blocksize fillval sFree : Nat} {dryrun : Bool}
    {blk : Nat} {s : SweepSt} (h : bm blk = true) :
    doJob bm blocksize fillval sFree dryrun blk s = s := by
  simp [doJob, h]

theorem doJob_clean {bm : Nat → Bool} {blocksize fillval sFree : Nat} {dryrun : Bool}
    {blk : Nat} {s : SweepSt} (h : bm blk = false)
    (hall : (s.vol blk).all (fun b => b == fillval) = true) :
    doJob bm blocksize fillval sFree dryrun blk s =
      { s with freeBlocks := s.freeBlocks + 1,
               percent := 100 * ((s.freeBlocks + 1 : Nat) : ℚ) / (sFree : ℚ),
               reads := s.reads ++ [blk] } := by
  simp [doJob, h, hall]

theorem doJob_dirty_dry {bm : Nat → Bool} {blocksize fillval sFree : Nat}
    {blk : Nat} {s : SweepSt} (h : bm blk = false)
    (hall : (s.vol blk).all (fun b => b == fillval) = false) :
    doJob bm blocksize fillval sFree true blk s =
      { s with freeBlocks := s.freeBlocks + 1,
               percent := 100 * ((s.freeBlocks + 1 : Nat) : ℚ) / (sFree : ℚ),
               reads := s.reads ++ [blk],
               modifiedBlocks := s.modifiedBlocks + 1 } := by
  simp [doJob, h, hall]

theorem doJob_dirty_write {bm : Nat → Bool} {blocksize fillval sFree : Nat}
    {blk : Nat} {s : SweepSt} (h : bm blk = false)
    (hall : (s.vol blk).all (fun b => b == fillval) = false) :
    doJob bm blocksize fillval sFree false blk s =
      { s with freeBlocks := s.freeBlocks + 1,
               percent := 100 * ((s.freeBlocks + 1 : Nat) : ℚ) / (sFree : ℚ),
               reads := s.reads ++ [blk],
               modifiedBlocks := s.modifiedBlocks + 1,
               vol := Function.update s.vol blk (List.replicate blocksize fillval),
               writes := s.writes ++ [blk] } := by
  simp [doJob, h, hall]

theorem replicate_all_fill (n v : Nat) :
    (List.replicate n v).all (fun b => b == v) = true := by
  simp [List.all_eq_true, List.mem_replicate]

theorem doJob_freeBlocks_eq (bm : Nat → Bool) (blocksize fillval sFree : Nat)
    (dryrun : Bool) (blk : Nat) (s : SweepSt) :
    (doJob bm blocksize fillval sFree dryrun blk s).freeBlocks =
      s.freeBlocks + (if bm blk then 0 else 1) := by
  cases h : bm blk
  · cases hall : (s.vol blk).all (fun b => b == fillval)
    · cases dryrun
      · rw [doJob_dirty_write h hall]; simp
      · rw [doJob_dirty_dry h hall]; simp
    · rw [doJob_clean h hall]; simp
  · rw [doJob_inuse h]
    simp

theorem sweep_freeBlocks_count (bm : Nat → Bool) (blocksize fillval sFree : Nat)
    (dryrun : Bool) :
    ∀ (blks : List Nat) (s : SweepSt),
      (blks.foldl (fun t b => doJob bm blocksize fillval sFree dryrun b t) s).freeBlocks
        = s.freeBlocks + blks.countP (fun b => !(bm b)) := by
  intro blks
  induction blks with
  | nil => intro s; simp
  | cons b l ih =>
    intro s
    rw [List.foldl_cons, ih, doJob_freeBlocks_eq, List.countP_cons]
    cases h : bm b
    · simp [h]; omega
    · simp [h]

theorem doJob_counts_mono (bm : Nat → Bool) (blocksize fillval sFree : Nat)
    (dryrun : Bool) (blk : Nat) (s : SweepSt) :
    s.freeBlocks ≤ (doJob bm blocksize fillval sFree dryrun blk s).freeBlocks ∧
    s.modifiedBlocks ≤ (doJob bm blocksize fillval sFree dryrun blk s).modifiedBlocks ∧
    (s.modifiedBlocks ≤ s.freeBlocks →
      (doJob bm blocksize fillval sFree dryrun blk s).modifiedBlocks
        ≤ (doJob bm blocksize fillval sFree dryrun blk s).freeBlocks) := by
  cases h : bm blk
  · cases hall : (s.vol blk).all (fun b => b == fillval)
    · cases dryrun
      · rw [doJob_dirty_write h hall]
        exact ⟨Nat.le_succ _, Nat.le_succ _, fun hle => by show s.modifiedBlocks + 1 ≤ s.freeBlocks + 1; omega⟩
      · rw [doJob_dirty_dry h hall]
        exact ⟨Nat.le_succ _, Nat.le_succ _, fun hle => by show s.modifiedBlocks + 1 ≤ s.freeBlocks + 1; omega⟩
    · rw [doJob_clean h hall]
      exact ⟨Nat.le_succ _, le_refl _, fun hle => by show s.modifiedBlocks ≤ s.freeBlocks + 1; omega⟩
  · rw [doJob_inuse h]
    exact ⟨le_refl _, le_refl _, fun hle => hle⟩

theorem doJob_percent_recomputed (bm : Nat → Bool) (blocksize fillval sFree : Nat)
    (dryrun : Bool) (blk : Nat) (s : SweepSt)
    (hne : (doJob bm blocksize fillval sFree dryrun blk s).freeBlocks ≠ s.freeBlocks) :
    (doJob bm blocksize fillval sFree dryrun blk s).percent =
      100 * ((doJob bm blocksize fillval sFree dryrun blk s).freeBlocks : ℚ) / (sFree : ℚ) := by
  cases h : bm blk
  · cases hall : (s.vol blk).all (fun b => b == fillval)
    · cases dryrun
      · rw [doJob_dirty_write h hall]
      · rw [doJob_dirty_dry h hall]
    · rw [doJob_clean h hall]
  · rw [doJob_inuse h] at hne
    exact absurd rfl hne

theorem sweep_mod_le_free (bm : Nat → Bool) (blocksize fillval sFree : Nat)
    (dryrun : Bool) :
    ∀ (blks : List Nat) (s : SweepSt), s.modifiedBlocks ≤ s.freeBlocks →
      (blks.foldl (fun t b => doJob bm blocksize fillval sFree dryrun b t) s).modifiedBlocks
        ≤ (blks.foldl (fun t b => doJob bm blocksize fillval sFree dryrun b t) s).freeBlocks := by
  intro blks
  induction blks with
  | nil => intro s h; exact h
  | cons b l ih =>
    intro s h
    rw [List.foldl_cons]
    exact ih _ ((doJob_counts_mono bm blocksize fillval sFree dryrun b s).2.2 h)

/-! ## Dry run versus normal run -/

theorem doJob_vol_frame {bm : Nat → Bool} {blocksize fillval sFree : Nat}
    {dryrun : Bool} {blk : Nat} {s : SweepSt} {b : Nat} (hne : b ≠ blk) :
    (doJob bm blocksize fillval sFree dryrun blk s).vol b = s.vol b := by
  cases h : bm blk
  · cases hall : (s.vol blk).all (fun c => c == fillval)
    · cases dryrun
      · rw [doJob_dirty_write h hall]
        exact Function.update_noteq hne _ _
      · rw [doJob_dirty_dry h hall]
    · rw [doJob_clean h hall]
  · rw [doJob_inuse h]

theorem doJob_writes_dry {bm : Nat → Bool} {blocksize fillval sFree : Nat}
    {blk : Nat} {s : SweepSt} :
    (doJob bm blocksize fillval sFree true blk s).writes = s.writes := by
  cases h : bm blk
  · cases hall : (s.vol blk).all (fun c => c == fillval)
    · rw [doJob_dirty_dry h hall]
    · rw [doJob_clean h hall]
  · rw [doJob_inuse h]

theorem doJob_counters_agree {bm : Nat → Bool} {blocksize fillval sFree : Nat}
    {blk : Nat} {sd sn : SweepSt} (hv : sd.vol blk = sn.vol blk)
    (hf : sd.freeBlocks = sn.freeBlocks) (hm : sd.modifiedBlocks = sn.modifiedBlocks) :
    (doJob bm blocksize fillval sFree true blk sd).freeBlocks
      = (doJob bm blocksize fillval sFree false blk sn).freeBlocks ∧
    (doJob bm blocksize fillval sFree true blk sd).modifiedBlocks
      = (doJob bm blocksize fillval sFree false blk sn).modifiedBlocks := by
  cases h : bm blk
  · cases hall : (sn.vol blk).all (fun c => c == fillval)
    · have hall' : (sd.vol blk).all (fun c => c == fillval) = false := by rw [hv]; exact hall
      rw [doJob_dirty_dry h hall', doJob_dirty_write h hall]
      exact ⟨by show sd.freeBlocks + 1 = sn.freeBlocks + 1; omega,
             by show sd.modifiedBlocks + 1 = sn.modifiedBlocks + 1; omega⟩
    · have hall' : (sd.vol blk).all (fun c => c == fillval) = true := by rw [hv]; exact hall
      rw [doJob_clean h hall', doJob_clean h hall]
      exact ⟨by show sd.freeBlocks + 1 = sn.freeBlocks + 1; omega, hm⟩
  · rw [doJob_inuse h, doJob_inuse h]
    exact ⟨hf, hm⟩

theorem sweep_dry_normal (bm : Nat → Bool) (blocksize fillval sFree : Nat) :
    ∀ (n first : Nat) (sd sn : SweepSt),
      sd.freeBlocks = sn.freeBlocks → sd.modifiedBlocks = sn.modifiedBlocks →
      (∀ b, first ≤ b → sd.vol b = sn.vol b) →
      ((List.range' first n).foldl
          (fun t b => doJob bm blocksize fillval sFree true b t) sd).freeBlocks
        = ((List.range' first n).foldl
            (fun t b => doJob bm blocksize fillval sFree false b t) sn).freeBlocks ∧
      ((List.range' first n).foldl
          (fun t b => doJob bm blocksize fillval sFree true b t) sd).modifiedBlocks
        = ((List.range' first n).foldl
            (fun t b => doJob bm blocksize fillval sFree false b t) sn).modifiedBlocks := by
  intro n
  induction n with
  | zero => intro first sd sn hf hm _; exact ⟨hf, hm⟩
  | succ n ih =>
    intro first sd sn hf hm hv
    have hrange : List.range' first (n + 1) = first :: List.range' (first + 1) n := rfl
    rw [hrange, List.foldl_cons, List.foldl_cons]
    have hstep := @doJob_counters_agree bm blocksize fillval sFree first sd sn
      (hv first (le_refl first)) hf hm
    apply ih (first + 1) _ _ hstep.1 hstep.2
    intro b hb
    have hbne : b ≠ first := by omega
    rw [doJob_vol_frame hbne, doJob_vol_frame hbne]
    exact hv b (by omega)

theorem sweep_writes_dry (bm : Nat → Bool) (blocksize fillval sFree : Nat) :
    ∀ (blks : List Nat) (s : SweepSt),
      (blks.foldl (fun t b => doJob bm blocksize fillval sFree true b t) s).writes
        = s.writes := by
  intro blks
  induction blks with
  | nil => intro s; rfl
  | cons b l ih =>
    intro s
    rw [List.foldl_cons, ih, doJob_writes_dry]

/-! ## Claims -/

/-- C5: for every free block processed by a worker, a block whose bytes all
equal the fill pattern is never written (and its contents survive); a block
with any differing byte is counted in `modifiedBlocks` and, outside dry-run
mode, written with a buffer of fill-pattern bytes and reads back as
all-fill-pattern afterwards; a block the bitmap marks in use is neither
read nor written and changes no counter. -/
theorem claim_C5_fill_correctness
    (bm : Nat → Bool) (blocksize fillval sFree : Nat) (dryrun : Bool)
    (blk : Nat) (s : SweepSt) :
    (bm blk = true → doJob bm blocksize fillval sFree dryrun blk s = s) ∧
    (bm blk = false → (s.vol blk).all (fun b => b == fillval) = true →
      (doJob bm blocksize fillval sFree dryrun blk s).writes = s.writes ∧
      (doJob bm blocksize fillval sFree dryrun blk s).vol = s.vol ∧
      (doJob bm blocksize fillval sFree dryrun blk s).freeBlocks = s.freeBlocks + 1 ∧
      (doJob bm blocksize fillval sFree dryrun blk s).modifiedBlocks = s.modifiedBlocks) ∧
    (bm blk = false → (s.vol blk).all (fun b => b == fillval) = false →
      (doJob bm blocksize fillval sFree dryrun blk s).freeBlocks = s.freeBlocks + 1 ∧
      (doJob bm blocksize fillval sFree dryrun blk s).modifiedBlocks
        = s.modifiedBlocks + 1 ∧
      (dryrun = false →
        (doJob bm blocksize fillval sFree dryrun blk s).vol blk
          = List.replicate blocksize fillval ∧
        ((doJob bm blocksize fillval sFree dryrun blk s).vol blk).all
          (fun b => b == fillval) = true ∧
        (doJob bm blocksize fillval sFree dryrun blk s).writes = s.writes ++ [blk])) := by
  refine ⟨fun h => doJob_inuse h, fun h hall => ?_, fun h hall => ?_⟩
  · rw [doJob_clean h hall]
    exact ⟨rfl, rfl, rfl, rfl⟩
  · refine ⟨?_, ?_, ?_⟩
    · cases dryrun
      · rw [doJob_dirty_write h hall]
      · rw [doJob_dirty_dry h hall]
    · cases dryrun
      · rw [doJob_dirty_write h hall]
      · rw [doJob_dirty_dry h hall]
    · intro hdr
      subst hdr
      rw [doJob_dirty_write h hall]
      refine ⟨?_, ?_, rfl⟩
      · show Function.update s.vol blk (List.replicate blocksize fillval) blk = _
        rw [Function.update_same]
      · show (Function.update s.vol blk (List.replicate blocksize fillval) blk).all
          (fun b => b == fillval) = true
        rw [Function.update_same]
        exact replicate_all_fill blocksize fillval

/-- Witness for C5: the three cases at concrete inputs — an in-use block is
untouched, a clean free block only bumps `freeBlocks`, a dirty free block is
rewritten to the fill buffer. -/
theorem claim_C5_fill_correctness_witness :
    doJob (fun _ => true) 2 0 1 false 3 (initSweep (fun _ => [1, 0]))
      = initSweep (fun _ => [1, 0]) ∧
    (doJob (fun _ => false) 2 0 1 false 3 (initSweep (fun _ => [0, 0]))).modifiedBlocks
      = (initSweep (fun _ => [0, 0])).modifiedBlocks ∧
    (doJob (fun _ => false) 2 0 1 false 3 (initSweep (fun _ => [1, 0]))).vol 3
      = List.replicate 2 0 := by
  refine ⟨?_, ?_, ?_⟩
  · exact (claim_C5_fill_correctness (fun _ => true) 2 0 1 false 3
      (initSweep (fun _ => [1, 0]))).1 rfl
  · exact ((claim_C5_fill_correctness (fun _ => false) 2 0 1 false 3
      (initSweep (fun _ => [0, 0]))).2.1 rfl (by decide)).2.2.2
  · exact (((claim_C5_fill_correctness (fun _ => false) 2 0 1 false 3
      (initSweep (fun _ => [1, 0]))).2.2 rfl (by decide)).2.2 rfl).1

/-- C6 (counterexample): `freeBlocksSeen` can exceed the volume's expected
free-block count `s_free_blocks_count`, because the code never checks the
superblock count against the block bitmap.  On an image whose superblock
claims 0 free blocks while the bitmap marks block 0 free, the sweep ends
with `freeBlocks = 1 > 0`. -/
theorem claim_C6_counterexample_free_exceeds_expected :
    (sweepRun (fun _ => false) 1 0 0 false [0] (fun _ => [1])).freeBlocks = 1 ∧
    ¬ (sweepRun (fun _ => false) 1 0 0 false [0] (fun _ => [1])).freeBlocks ≤ 0 := by
  decide

/-- C6 (amended): `freeBlocks` and `modifiedBlocks` are non-decreasing
across every job, `modifiedBlocks ≤ freeBlocks` is preserved by every job
and holds for every whole sweep, `percent` is recomputed as
`100 * freeBlocks / s_free_blocks_count` by every job that increments
`freeBlocks`, and `freeBlocks` stays at or below `s_free_blocks_count`
provided the superblock's free count is at least the number of bitmap-free
blocks in the swept range (an assumption the code itself never checks). -/
theorem claim_C6_progress_accounting
    (bm : Nat → Bool) (blocksize fillval sFree : Nat) (dryrun : Bool)
    (blk : Nat) (s : SweepSt) (blks : List Nat) (vol0 : Nat → List Nat) :
    (s.freeBlocks ≤ (doJob bm blocksize fillval sFree dryrun blk s).freeBlocks ∧
     s.modifiedBlocks ≤ (doJob bm blocksize fillval sFree dryrun blk s).modifiedBlocks) ∧
    (s.modifiedBlocks ≤ s.freeBlocks →
      (doJob bm blocksize fillval sFree dryrun blk s).modifiedBlocks
        ≤ (doJob bm blocksize fillval sFree dryrun blk s).freeBlocks) ∧
    ((doJob bm blocksize fillval sFree dryrun blk s).freeBlocks ≠ s.freeBlocks →
      (doJob bm blocksize fillval sFree dryrun blk s).percent =
        100 * ((doJob bm blocksize fillval sFree dryrun blk s).freeBlocks : ℚ)
          / (sFree : ℚ)) ∧
    (sweepRun bm blocksize fillval sFree dryrun blks vol0).modifiedBlocks
      ≤ (sweepRun bm blocksize fillval sFree dryrun blks vol0).freeBlocks ∧
    (blks.countP (fun b => !(bm b)) ≤ sFree →
      (sweepRun bm blocksize fillval sFree dryrun blks vol0).freeBlocks ≤ sFree) := by
  have hmono := doJob_counts_mono bm blocksize fillval sFree dryrun blk s
  refine ⟨⟨hmono.1, hmono.2.1⟩, hmono.2.2,
          doJob_percent_recomputed bm blocksize fillval sFree dryrun blk s, ?_, ?_⟩
  · exact sweep_mod_le_free bm blocksize fillval sFree dryrun blks
      (initSweep vol0) (le_refl 0)
  · intro hcount
    have h := sweep_freeBlocks_count bm blocksize fillval sFree dryrun blks (initSweep vol0)
    unfold sweepRun
    rw [h]
    show 0 + List.countP (fun b => !bm b) blks ≤ sFree
    omega

/-- Witness for C6 (amended): the hypothesised parts at concrete inputs —
ratio preservation from `0 ≤ 0`, percent recomputation after a free-block
increment, and the bound under a consistent superblock count. -/
theorem claim_C6_progress_accounting_witness :
    ((doJob (fun _ => false) 1 0 4 false 0 (initSweep (fun _ => [1]))).modifiedBlocks
      ≤ (doJob (fun _ => false) 1 0 4 false 0 (initSweep (fun _ => [1]))).freeBlocks) ∧
    ((doJob (fun _ => false) 1 0 4 false 0 (initSweep (fun _ => [1]))).percent
      = 100 * ((doJob (fun _ => false) 1 0 4 false 0
          (initSweep (fun _ => [1]))).freeBlocks : ℚ) / (4 : ℚ)) ∧
    (sweepRun (fun _ => false) 1 0 4 false [0] (fun _ => [1])).freeBlocks ≤ 4 := by
  refine ⟨?_, ?_, ?_⟩
  · exact (claim_C6_progress_accounting (fun _ => false) 1 0 4 false 0
      (initSweep (fun _ => [1])) [0] (fun _ => [1])).2.1 (by decide)
  · exact (claim_C6_progress_accounting (fun _ => false) 1 0 4 false 0
      (initSweep (fun _ => [1])) [0] (fun _ => [1])).2.2.1 (by decide)
  · exact (claim_C6_progress_accounting (fun _ => false) 1 0 4 false 0
      (initSweep (fun _ => [1])) [0] (fun _ => [1])).2.2.2.2 (by decide)

/-- C7: on the same image the dry run reports exactly the same
`freeBlocks` and `modifiedBlocks` as the normal run over the dispatch range
`[first, first + n)`, and performs no block write at all. -/
theorem claim_C7_dry_run_equivalence
    (bm : Nat → Bool) (blocksize fillval sFree first n : Nat) (vol0 : Nat → List Nat) :
    (sweepRun bm blocksize fillval sFree true (List.range' first n) vol0).freeBlocks
      = (sweepRun bm blocksize fillval sFree false (List.range' first n) vol0).freeBlocks ∧
    (sweepRun bm blocksize fillval sFree true (List.range' first n) vol0).modifiedBlocks
      = (sweepRun bm blocksize fillval sFree false (List.range' first n) vol0).modifiedBlocks ∧
    (sweepRun bm blocksize fillval sFree true (List.range' first n) vol0).writes = [] := by
  have h := sweep_dry_normal bm blocksize fillval sFree n first
    (initSweep vol0) (initSweep vol0) rfl rfl (fun _ _ => rfl)
  exact ⟨h.1, h.2,
    sweep_writes_dry bm blocksize fillval sFree (List.range' first n) (initSweep vol0)⟩

/-! ## Configuration and precondition errors -/

theorem parseArgs_error_imp {cl : CmdLine} {e : Nat}
    (h : parseArgs cl = Except.error e) : e = 1 := by
  unfold parseArgs at h
  repeat' split at h
  all_goals first
    | exact (Except.error.inj h).symm
    | exact Except.noConfusion h

theorem mainModel_parse_error {cl : CmdLine} (env : VolEnv) {e : Nat}
    (h : parseArgs cl = Except.error e) : mainModel cl env = Except.error e := by
  unfold mainModel
  rw [h]

/-- C8: every configuration or precondition error — a fill value above 255
after the unsigned conversion, a malformed `-f` argument, a worker count
outside the validated range `1..1024*1024`, a malformed `-t` argument, a
wrong number of positional arguments, or a volume mounted read-write —
makes `main` return exit code 1 before the filesystem is opened or swept,
so no block is ever written. -/
theorem claim_C8_config_errors (cl : CmdLine) (env : VolEnv) :
    (∀ v : Int, cl.fArg = some (some v) → 0xFF < uintOfLong v →
        mainModel cl env = Except.error 1) ∧
    (cl.fArg = some none → mainModel cl env = Except.error 1) ∧
    (∀ v : Int, cl.tArg = some (some v) →
        (cIntOfLong v < 1 ∨ 1024 * 1024 < cIntOfLong v) →
        mainModel cl env = Except.error 1) ∧
    (cl.tArg = some none → mainModel cl env = Except.error 1) ∧
    (cl.nPositional ≠ 1 → mainModel cl env = Except.error 1) ∧
    (env.mountFlags &&& EXT2_MF_MOUNTED ≠ 0 ∧ env.mountFlags &&& EXT2_MF_READONLY = 0 →
        mainModel cl env = Except.error 1) := by
  refine ⟨?_, ?_, ?_, ?_, ?_, ?_⟩
  · intro v hf hgt
    apply mainModel_parse_error env
    have h1 : fillvalOf cl = uintOfLong v := by simp [fillvalOf, hf]
    unfold parseArgs
    split
    · rfl
    · rw [hf]
      rw [if_pos (by rw [h1]; exact hgt)]
  · intro hf
    apply mainModel_parse_error env
    unfold parseArgs
    split
    · rfl
    · rw [hf]
  · intro v ht hrange
    apply mainModel_parse_error env
    have h1 : maxThreadsOf cl = cIntOfLong v := by simp [maxThreadsOf, ht]
    unfold parseArgs
    split
    · rfl
    · split
      · rfl
      · split
        · rfl
        · rw [ht]
          rw [if_pos (by rw [h1]; exact hrange)]
  · intro ht
    apply mainModel_parse_error env
    unfold parseArgs
    split
    · rfl
    · split
      · rfl
      · split
        · rfl
        · rw [ht]
  · intro hnp
    apply mainModel_parse_error env
    unfold parseArgs
    repeat' split
    all_goals rfl
  · intro hmount
    cases hpa : parseArgs cl with
    | error e =>
      rw [mainModel_parse_error env hpa, parseArgs_error_imp hpa]
    | ok cfg =>
      unfold mainModel
      rw [hpa]
      dsimp only
      by_cases hmc : env.mountCheckErr = true
      · rw [if_pos hmc]
      · rw [if_neg hmc, if_pos hmount]

/-- Witness for C8: each error case at a concrete command line or
environment. -/
theorem claim_C8_config_errors_witness :
    mainModel ⟨false, false, some (some 256), none, false, 1⟩
      ⟨false, 0, false, false, false, 1, 0, 0, 0, fun _ => true, fun _ => []⟩
      = Except.error 1 ∧
    mainModel ⟨false, false, some none, none, false, 1⟩
      ⟨false, 0, false, false, false, 1, 0, 0, 0, fun _ => true, fun _ => []⟩
      = Except.error 1 ∧
    mainModel ⟨false, false, none, some (some 0), false, 1⟩
      ⟨false, 0, false, false, false, 1, 0, 0, 0, fun _ => true, fun _ => []⟩
      = Except.error 1 ∧
    mainModel ⟨false, false, none, some none, false, 1⟩
      ⟨false, 0, false, false, false, 1, 0, 0, 0, fun _ => true, fun _ => []⟩
      = Except.error 1 ∧
    mainModel ⟨false, false, none, none, false, 2⟩
      ⟨false, 0, false, false, false, 1, 0, 0, 0, fun _ => true, fun _ => []⟩
      = Except.error 1 ∧
    mainModel ⟨false, false, none, none, false, 1⟩
      ⟨false, 1, false, false, false, 1, 0, 0, 0, fun _ => true, fun _ => []⟩
      = Except.error 1 := by
  refine ⟨?_, ?_, ?_, ?_, ?_, ?_⟩
  · exact (claim_C8_config_errors _ _).1 256 rfl (by norm_num [uintOfLong])
  · exact (claim_C8_config_errors _ _).2.1 rfl
  · exact (claim_C8_config_errors _ _).2.2.1 0 rfl (Or.inl (by norm_num [cIntOfLong]))
  · exact (claim_C8_config_errors _ _).2.2.2.1 rfl
  · exact (claim_C8_config_errors _ _).2.2.2.2.1 (by norm_num)
  · exact (claim_C8_config_errors _ _).2.2.2.2.2 ⟨by norm_num [EXT2_MF_MOUNTED],
      by norm_num [EXT2_MF_READONLY]⟩

/-- C9: the filesystem is always opened with `EXT2_FLAG_RW` — `open_flags`
is fixed at line 126 and the dry-run flag only suppresses the per-block
write call, never the open mode.  Every run of the model that reaches the
sweep opened the volume read-write, for every command line including
dry-run ones. -/
theorem claim_C9_open_rw_flags (cl : CmdLine) (env : VolEnv) (out : RunOutcome)
    (h : mainModel cl env = Except.ok out) : out.openFlags = EXT2_FLAG_RW := by
  unfold mainModel at h
  cases hpa : parseArgs cl with
  | error e =>
    rw [hpa] at h
    exact Except.noConfusion h
  | ok cfg =>
    rw [hpa] at h
    repeat' split at h
    any_goals exact Except.noConfusion h
    injection h with h
    rw [← h]

/-- Witness for C9: a concrete dry-run command line whose run reaches the
sweep, with the open flags equal to `EXT2_FLAG_RW`. -/
theorem claim_C9_open_rw_flags_witness :
    ({ openFlags := EXT2_FLAG_RW,
       sweep := sweepRun (fun _ => true) 1 0 0 true (List.range' 0 (0 - 0)) (fun _ => []) } :
      RunOutcome).openFlags = EXT2_FLAG_RW :=
  claim_C9_open_rw_flags ⟨true, false, none, none, false, 1⟩
    ⟨false, 0, false, false, false, 1, 0, 0, 0, fun _ => true, fun _ => []⟩ _ rfl

/-- C10: the worker copies the `unsigned long` job slot into a signed
32-bit `int` at line 58, so the block number it then tests, reads and
writes equals the dispatched one exactly when the latter fits in a signed
32-bit `int`; at `2^31` the copy already differs. -/
theorem claim_C10_worker_block_number :
    (∀ n : Nat, n < 2 ^ 31 → job_block_num_to_blk n = (n : Int)) ∧
    job_block_num_to_blk (2 ^ 31) = -(2 ^ 31 : Int) := by
  constructor
  · intro n hn
    unfold job_block_num_to_blk cIntOfLong
    omega
  · unfold job_block_num_to_blk cIntOfLong
    norm_num

/-- Witness for C10: block number 7 survives the `unsigned long` to `int`
copy unchanged. -/
theorem claim_C10_worker_block_number_witness :
    job_block_num_to_blk 7 = (7 : Int) :=
  claim_C10_worker_block_number.1 7 (by norm_num)

/-- C1 (code bug): the shutdown protocol deadlocks.  After the dispatch
loop (here over the empty range `[0, 0)`, with one worker and
`max_threads = 1`) the coordinator sets `quit` and broadcasts
`job_enqueued`, but a worker blocked in `while (!do_job)
pthread_cond_wait(...)` (lines 54-55) re-checks only `do_job` when woken —
the `if (quit) break` at line 56 sits after that loop and is reached only
when `do_job` is set, which never happens again after shutdown.  The state
below is reachable, terminal (no step of the coordinator or of the worker
is enabled), and its worker is still blocked waiting (`nWait = 1`,
`nExited = 0`), so `main`'s `pthread_join` loop (lines 251-255) can never
complete. -/
theorem claim_C1_shutdown_deadlock :
    Reachable 0 1 0 1
      { quit := true, do_job := false, job_block_num := 0, runningThreads := 0,
        cpc := CPc.done, nWait := 1, nBusy := 0, nExited := 0, accepted := [] } ∧
    (∀ l : SLabel, stepF 0 1 l
      { quit := true, do_job := false, job_block_num := 0, runningThreads := 0,
        cpc := CPc.done, nWait := 1, nBusy := 0, nExited := 0, accepted := [] } = none) ∧
    ({ quit := true, do_job := false, job_block_num := 0, runningThreads := 0,
       cpc := CPc.done, nWait := 1, nBusy := 0, nExited := 0, accepted := [] }
        : SysState).nWait = 1 ∧
    ({ quit := true, do_job := false, job_block_num := 0, runningThreads := 0,
       cpc := CPc.done, nWait := 1, nBusy := 0, nExited := 0, accepted := [] }
        : SysState).nExited = 0 := by
  refine ⟨runTrace_reachable 0 1 0 1 [SLabel.loopExit, SLabel.doQuit] _ (by decide),
          ?_, rfl, rfl⟩
  intro l
  cases l <;> decide

/-- C2 (code bug): an I/O error in a worker does not abort the sweep and
does not make the process exit non-zero.  In the run below (blocks
`[0, 2)`, two workers), a worker accepts block 0, its
`io_channel_read_blk` fails and the worker returns (only printing a
message — `worker_thread` returns `NULL` on every path), after which the
coordinator still dispatches block 1 and the other worker accepts it.
And `main`'s return value after the joins depends only on `ext2fs_close`
(lines 257-267): it is `0` when the close succeeds, whatever the workers
hit. -/
theorem claim_C2_error_not_fatal :
    Reachable 2 2 0 2
      { quit := false, do_job := false, job_block_num := 1, runningThreads := 1,
        cpc := CPc.waitAccept 1, nWait := 0, nBusy := 1, nExited := 1,
        accepted := [0, 1] } ∧
    ({ quit := false, do_job := false, job_block_num := 1, runningThreads := 1,
       cpc := CPc.waitAccept 1, nWait := 0, nBusy := 1, nExited := 1,
       accepted := [0, 1] } : SysState).nExited = 1 ∧
    ({ quit := false, do_job := false, job_block_num := 1, runningThreads := 1,
       cpc := CPc.waitAccept 1, nWait := 0, nBusy := 1, nExited := 1,
       accepted := [0, 1] } : SysState).accepted = [0, 1] ∧
    mainReturnAfterJoin false = 0 :=
  ⟨runTrace_reachable 2 2 0 2
      [SLabel.dispatch, SLabel.accept, SLabel.acceptDone, SLabel.errorExit,
       SLabel.dispatch, SLabel.accept] _ (by decide),
   rfl, rfl, rfl⟩

/-- C3: in every reachable state of a sweep the accepted blocks are
pairwise distinct and lie in `[first, count)`; when the coordinator has
finished dispatching (program counter `done`) they are exactly the
interval `[first, count)` in ascending order; and the job slot is always
empty (`do_job = false`) whenever the coordinator is at the loop head from
which the next publication happens, so a pending job is never
overwritten. -/
theorem claim_C3_exact_coverage
    (first count : Nat) (max : Int) (N : Nat) (s : SysState)
    (hmax : 0 < max) (hreach : Reachable count max first N s) :
    s.accepted.Nodup ∧
    (∀ b ∈ s.accepted, first ≤ b ∧ b < count) ∧
    (s.cpc = CPc.done → s.accepted = List.range' first (count - first)) ∧
    (∀ blk, s.cpc = CPc.loop blk → s.do_job = false) := by
  obtain ⟨hN, hrun, hle, hdj, hq, hcpcL, hcpcW, hcpcS, hcpcD⟩ := inv_reachable hmax hreach
  refine ⟨?_, ?_, fun hd => (hcpcD hd).2, fun blk hc => (hcpcL blk hc).2.2.1⟩
  · cases hc : s.cpc with
    | loop blk =>
      rw [(hcpcL blk hc).2.2.2]
      exact List.nodup_range' ..
    | waitAccept blk =>
      obtain ⟨h1, h2, h3, h4⟩ := hcpcW blk hc
      cases hdb : s.do_job
      · rw [h4 hdb]
        exact List.nodup_range' ..
      · rw [(h3 hdb).2]
        exact List.nodup_range' ..
    | setQuit =>
      rw [(hcpcS hc).2]
      exact List.nodup_range' ..
    | done =>
      rw [(hcpcD hc).2]
      exact List.nodup_range' ..
  · intro b hb
    cases hc : s.cpc with
    | loop blk =>
      obtain ⟨h1, h2, _, h4⟩ := hcpcL blk hc
      rw [h4, List.mem_range'_1] at hb
      rcases Nat.lt_or_ge blk count with hlt | hge
      · omega
      · have := h2 hge
        omega
    | waitAccept blk =>
      obtain ⟨h1, h2, h3, h4⟩ := hcpcW blk hc
      cases hdb : s.do_job
      · rw [h4 hdb, List.mem_range'_1] at hb
        omega
      · rw [(h3 hdb).2, List.mem_range'_1] at hb
        omega
    | setQuit =>
      rw [(hcpcS hc).2, List.mem_range'_1] at hb
      omega
    | done =>
      rw [(hcpcD hc).2, List.mem_range'_1] at hb
      omega

/-- Witness for C3: a complete two-block sweep (one worker,
`max_threads = 1`) reaches the coordinator's `done` point with the
accepted log `[0, 1]`, duplicate-free and exactly `[0, 2)`. -/
theorem claim_C3_exact_coverage_witness :
    ([0, 1] : List Nat).Nodup ∧ ([0, 1] : List Nat) = List.range' 0 (2 - 0) := by
  have hr := runTrace_reachable 2 1 0 1
    [SLabel.dispatch, SLabel.accept, SLabel.acceptDone, SLabel.finishJob,
     SLabel.dispatch, SLabel.accept, SLabel.acceptDone, SLabel.finishJob,
     SLabel.loopExit, SLabel.doQuit]
    { quit := true, do_job := false, job_block_num := 1, runningThreads := 0,
      cpc := CPc.done, nWait := 1, nBusy := 0, nExited := 0, accepted := [0, 1] }
    (by decide)
  have h := claim_C3_exact_coverage 0 2 1 1 _ (by norm_num) hr
  exact ⟨h.1, h.2.2.1 rfl⟩

/-- C4: in every reachable state of a sweep with a validated thread count,
the shared `runningThreads` counter satisfies
`0 ≤ runningThreads ≤ max_threads`, and it equals exactly the number of
workers currently between accepting a job and finishing it — each accept
increments it once and each completion or error-abort decrements it once. -/
theorem claim_C4_bounded_active_count
    (first count : Nat) (max : Int) (N : Nat) (s : SysState)
    (hmax : 0 < max) (hreach : Reachable count max first N s) :
    0 ≤ s.runningThreads ∧ s.runningThreads ≤ max ∧
      s.runningThreads = (s.nBusy : Int) := by
  obtain ⟨hN, hrun, hle, hdj, hq, hcpc⟩ := inv_reachable hmax hreach
  exact ⟨by omega, hle, hrun⟩

/-- Witness for C4: after one accepted job (one worker, `max_threads = 1`)
the counter sits at `1`, inside the bounds. -/
theorem claim_C4_bounded_active_count_witness :
    (0 : Int) ≤ 1 ∧ (1 : Int) ≤ 1 ∧ (1 : Int) = ((1 : Nat) : Int) := by
  have hr := runTrace_reachable 2 1 0 1 [SLabel.dispatch, SLabel.accept]
    { quit := false, do_job := false, job_block_num := 0, runningThreads := 1,
      cpc := CPc.waitAccept 0, nWait := 0, nBusy := 1, nExited := 0, accepted := [0] }
    (by decide)
  exact claim_C4_bounded_active_count 0 2 1 1 _ (by norm_num) hr

end Zerofree
